import Mathlib

/-!
# BUBE PD-derivatives engine: shallow embedding and verification

A shallow embedding of the probability-difference (PD) derivatives engine of
the Prediction-Markets repository.  The repository carries two near-identical
copies of the engine: a JavaScript/React one (`pdEngine.js` + `App.jsx`) and a
Python/Streamlit one (`BUBE_Polymarket`).  All numeric values are modelled as
rationals (`ℚ`); the source uses IEEE doubles, but every claim under scrutiny
is an exact algebraic contract on small decimal constants, so `ℚ` is the
faithful idealisation.

Definitions are translated from the source files; each definition's doc
comment names the source function it embeds.
-/

namespace PDEngine

/-- Side of a position: `'LONG'` (YES) or `'SHORT'` (NO) in the source. -/
inductive Side where
  | LONG
  | SHORT
deriving DecidableEq, Repr

/-- Market lifecycle status: `'OPEN'` or `'SETTLED'` strings in the source. -/
inductive MStatus where
  | OPEN
  | SETTLED
deriving DecidableEq, Repr

/-- Position lifecycle status: `'OPEN'`, `'LIQUIDATED'`, `'SETTLED'` strings
in the source. -/
inductive PStatus where
  | OPEN
  | LIQUIDATED
  | SETTLED
deriving DecidableEq, Repr

/-- The spec's `sign` function: `sign(LONG) = +1`, `sign(SHORT) = -1`.
This is written from the spec's words, to be compared with what `pdPnl`
computes. -/
def Side.sign : Side → ℚ
  | .LONG => 1
  | .SHORT => -1

/-- Embeds `pdPnl(notional, pEntry, pCurrent, side)` from `pdEngine.js`
(identical to `pd_pnl` in the Python copy):
`s = side === 'LONG' ? 1 : -1; deltaP = pCurrent - pEntry;
 return notional * deltaP * s`. -/
def pdPnl (notional pEntry pCurrent : ℚ) (side : Side) : ℚ :=
  let s : ℚ := match side with
    | .LONG => 1
    | .SHORT => -1
  let deltaP := pCurrent - pEntry
  notional * deltaP * s

/-- Embeds `computeEquity(imAmount, pnl) = imAmount + pnl` from
`pdEngine.js` (identical to `compute_equity` in the Python copy). -/
def computeEquity (imAmount pnl : ℚ) : ℚ :=
  imAmount + pnl

/-- Embeds the constant `LIQ_THRESHOLD_BETA = 0.05` (5% of initial margin),
declared once, system-wide, in both copies of the engine. -/
def LIQ_THRESHOLD_BETA : ℚ := 5 / 100

/-- Embeds `isLiquidation(equity, imAmount) = equity <= LIQ_THRESHOLD_BETA *
imAmount` from `pdEngine.js` (identical to `is_liquidation` in the Python
copy).  The threshold is the single named constant `LIQ_THRESHOLD_BETA`;
the function takes no per-market or per-position threshold parameter. -/
def isLiquidation (equity imAmount : ℚ) : Bool :=
  decide (equity ≤ LIQ_THRESHOLD_BETA * imAmount)

/-- A market record, after the fields used by the engine
(`id`, `currentP`, `status`, `outcome`) plus the provenance fields the
Polymarket refresh path reads (`source`, `polyId`) and the display fields it
overwrites (`question`, `description`, `slug`). -/
structure Market where
  id : String
  question : String
  description : String
  slug : String
  source : String
  polyId : String
  currentP : ℚ
  status : MStatus
  outcome : Option ℚ
deriving DecidableEq, Repr

/-- A position record, after the JS object built by `handleOpenPosition`
(the Python `Position` dataclass has the same engine-relevant fields). -/
structure Position where
  id : String
  marketId : String
  side : Side
  notional : ℚ
  imPct : ℚ
  imAmount : ℚ
  entryP : ℚ
  currentP : ℚ
  pnl : ℚ
  equity : ℚ
  status : PStatus
deriving DecidableEq, Repr

/-- The in-memory ledgers: the `markets` and `positions` session state shared
by every handler (React `useState` pair / Streamlit `session_state`). -/
structure EngineState where
  markets : List Market
  positions : List Position
deriving DecidableEq, Repr

/-- Market lookup by id: `markets.find(m => m.id === mid)` in the JS copy,
`st.session_state.markets[mid]` in the Python copy. -/
def findMarket (s : EngineState) (mid : String) : Option Market :=
  s.markets.find? (fun m => m.id == mid)

/-- The per-position body of the update propagator.  Embeds the loop body of
`update_positions_for_market` (Python), which is the same per-position
transform as the `setPositions(prev => prev.map(pos => ...))` recompute in
`App.jsx` restricted to the updated market: skip positions of other markets,
skip non-`OPEN` positions, otherwise recompute `pnl`/`equity`, mirror the new
probability into `currentP`, and flip the status to `LIQUIDATED` when
`isLiquidation` fires. -/
def updatePositionOne (mid : String) (newP : ℚ) (pos : Position) : Position :=
  if pos.marketId != mid then pos
  else if pos.status != .OPEN then pos
  else
    let pnl := pdPnl pos.notional pos.entryP newP pos.side
    let equity := computeEquity pos.imAmount pnl
    let st := if isLiquidation equity pos.imAmount then PStatus.LIQUIDATED else PStatus.OPEN
    { pos with pnl := pnl, equity := equity, currentP := newP, status := st }

/-- `applyPriceUpdate(marketId, newProbability)`: write the new probability
into the Probability Ledger and run the update propagator over the Position
Ledger.  Embeds the Python path `markets[mid]["current_p"] = p;
update_positions_for_market(mid)` (guarded by the market existing, as the JS
handler is by `if (!adminMarket) return`); the JS pair
`handleManualProbApply` + recompute effect performs the same per-position
transform for the updated market. -/
def applyPriceUpdate (s : EngineState) (mid : String) (newP : ℚ) : EngineState :=
  match findMarket s mid with
  | none => s
  | some _ =>
    { markets := s.markets.map (fun m => if m.id == mid then { m with currentP := newP } else m)
      positions := s.positions.map (updatePositionOne mid newP) }

/-- `handleManualProbApply` (JS): the caller clamps the probability into
[0,1] with `Math.min(1, Math.max(0, p))` before applying the update. -/
def handleManualProbApply (s : EngineState) (mid : String) (p : ℚ) : EngineState :=
  applyPriceUpdate s mid (min 1 (max 0 p))

/-- A sequence of price updates applied in order. -/
def applyUpdates (s : EngineState) (us : List (String × ℚ)) : EngineState :=
  us.foldl (fun st u => applyPriceUpdate st u.1 u.2) s

/-- The per-position body of the settlement sweep.  Embeds the
`setPositions(prev => prev.map(pos => ...))` body of `handleSettle` (JS),
identical to the loop body of `settle_market` (Python): skip positions of
other markets, skip already-`SETTLED` positions, move `LIQUIDATED` positions
to `SETTLED` keeping all their values, and finalise `OPEN` positions with the
outcome substituted for the current probability.  `isLiquidation` is never
consulted on this path. -/
def settlePosition (mid : String) (outcome : ℚ) (pos : Position) : Position :=
  if pos.marketId != mid then pos
  else if pos.status == .SETTLED then pos
  else if pos.status == .LIQUIDATED then { pos with status := .SETTLED }
  else
    let finalPnl := pdPnl pos.notional pos.entryP outcome pos.side
    let equity := computeEquity pos.imAmount finalPnl
    { pos with currentP := outcome, pnl := finalPnl, equity := equity, status := .SETTLED }

/-- `settleMarket(marketId, outcome)`.  Embeds `handleSettle` (JS): guard on
a market being selected, coerce the outcome with
`settleOutcome === 1 ? 1 : 0`, unconditionally mark the market `SETTLED`
with that outcome (no check that the market is still `OPEN` — the Python
`settle_market` likewise reassigns `status`/`outcome` with no guard), then
sweep the positions with `settlePosition`. -/
def settleMarket (s : EngineState) (mid : String) (rawOutcome : ℚ) : EngineState :=
  match findMarket s mid with
  | none => s
  | some _ =>
    let outcome : ℚ := if rawOutcome == 1 then 1 else 0
    { markets := s.markets.map
        (fun m => if m.id == mid then { m with status := .SETTLED, outcome := some outcome } else m)
      positions := s.positions.map (settlePosition mid outcome) }

/-- `handleOpenPosition` (JS): guard `if (!selectedMarket) return` and
`if (notional <= 0) return` — there is NO check of the market's status —
then append one position with `imAmount = notional * imPct / 100`
(`imPct` is a percentage in the JS copy), `entryP = currentP` = the market's
current probability, `pnl = 0`, `equity = imAmount`, `status = 'OPEN'`.
`newId` stands for the generated `crypto.randomUUID()`. -/
def handleOpenPosition (s : EngineState) (mid : String) (side : Side)
    (notional imPct : ℚ) (newId : String) : EngineState :=
  match findMarket s mid with
  | none => s
  | some m =>
    if notional ≤ 0 then s
    else
      let imAmount := notional * imPct / 100
      let entryP := m.currentP
      { s with positions := s.positions ++
          [{ id := newId, marketId := mid, side := side, notional := notional,
             imPct := imPct, imAmount := imAmount, entryP := entryP,
             currentP := entryP, pnl := 0, equity := imAmount, status := .OPEN }] }

/-- The Python open-position handler (`main`, Open Position tab): unlike the
JS copy it first rejects a market whose status is not `OPEN`
(`st.error("Cannot open position on a settled market.")`), then rejects
`notional <= 0`; here `imPct` is already a fraction
(`im_pct = im_pct_view / 100.0` happens at the UI boundary). -/
def openPositionPy (s : EngineState) (mid : String) (side : Side)
    (notional imPct : ℚ) (newId : String) : EngineState :=
  match findMarket s mid with
  | none => s
  | some m =>
    if m.status != .OPEN then s
    else if notional ≤ 0 then s
    else
      let imAmount := notional * imPct
      let entryP := m.currentP
      { s with positions := s.positions ++
          [{ id := newId, marketId := mid, side := side, notional := notional,
             imPct := imPct, imAmount := imAmount, entryP := entryP,
             currentP := entryP, pnl := 0, equity := imAmount, status := .OPEN }] }

/-! ## Polymarket ingestion -/

/-- Result of `JSON.parse(m.outcomes ?? '[]')`: the parse can throw
(`malformed`), yield a non-array value (`notArray`), or yield an array — only
its length matters to the filter, so only the length is kept. -/
inductive ParsedOutcomes where
  | malformed
  | notArray
  | array (n : Nat)
deriving DecidableEq, Repr

/-- Result of `JSON.parse(m.outcomePrices ?? '[]')`: throw (`malformed`),
non-array (`notArray`), or an array whose first element is either absent/null
(`array none`) or converts to a number (`array (some q)`; the JS `Number(.)`
and Python `float(.)` conversions are modelled as already yielding the
rational — a `Number` call yielding NaN is outside the rational model and
not needed by any claim). -/
inductive ParsedPrices where
  | malformed
  | notArray
  | array (first : Option ℚ)
deriving DecidableEq, Repr

/-- A candidate market as consumed from the provider response: the three
fields the filter reads (`active`, `closed`, `outcomes`), the probability
field (`outcomePrices`) and the pass-through display fields. -/
structure PolyMarket where
  id : String
  active : Bool
  closed : Bool
  outcomes : ParsedOutcomes
  outcomePrices : ParsedPrices
  slug : String
  question : String
  description : String
deriving DecidableEq, Repr

/-- The filter body of `fetchPolymarketMarkets`: `continue` when
`!m.active || m.closed`, when `JSON.parse(m.outcomes)` throws, or when the
result is not an array of length exactly 2. -/
def keepMarket (m : PolyMarket) : Bool :=
  m.active && !m.closed &&
    (match m.outcomes with
     | .array n => n == 2
     | _ => false)

/-- The selection loop of `fetchPolymarketMarkets`: push each kept candidate
and `break` as soon as `selected.length >= maxMarkets` (checked after the
push, as in the source). -/
def selectGo (maxMarkets count : Nat) : List PolyMarket → List PolyMarket
  | [] => []
  | m :: rest =>
    if keepMarket m then
      if count + 1 ≥ maxMarkets then [m]
      else m :: selectGo maxMarkets (count + 1) rest
    else selectGo maxMarkets count rest

/-- The pure part of `fetchPolymarketMarkets(maxMarkets)` applied to the
decoded response body. -/
def selectMarkets (maxMarkets : Nat) (data : List PolyMarket) : List PolyMarket :=
  selectGo maxMarkets 0 data

/-- The probability extraction of `polymarketToBube`: start from `pYes = 0`;
if `outcomePrices` parses to an array whose first element is non-null, take
its numeric value; every failure path leaves `pYes = 0`.  A malformed
`outcomePrices` field does NOT reject the candidate. -/
def pYesOf (m : PolyMarket) : ℚ :=
  match m.outcomePrices with
  | .array (some q) => q
  | _ => 0

/-- Embeds `polymarketToBube` (JS; `polymarket_market_to_bube` in Python is
the same map): normalise a surviving candidate into the internal `Market`
shape with the id prefixed by `poly-`. -/
def polymarketToBube (m : PolyMarket) : Market :=
  { id := "poly-" ++ m.id
    question := m.question
    description := m.description
    slug := m.slug
    source := "polymarket"
    polyId := m.id
    currentP := pYesOf m
    status := .OPEN
    outcome := none }

/-- Embeds `handleRefreshFromPolymarket` (JS).  `fetchOutcome` is the result
of the asynchronous fetch: `none` when the fetch rejects (network/HTTP/JSON
error — the `.catch` path, which only alerts), `some data` the decoded
response, which is then run through the `fetchPolymarketMarkets(50)` filter.
The JS `Object.fromEntries` lookup keeps the LAST entry per id, hence the
`reverse` before `find?`.  When no market matches `adminMarket.polyId` the
handler alerts and returns with no state change; on success only the admin
market's `currentP`, `question` and `description` are rewritten (positions
are not touched by this handler — the recompute is a separate effect). -/
def handleRefreshFromPolymarket (s : EngineState) (adminId : String)
    (fetchOutcome : Option (List PolyMarket)) : EngineState :=
  match findMarket s adminId with
  | none => s
  | some adm =>
    if adm.source != "polymarket" then s
    else
      match fetchOutcome with
      | none => s
      | some data =>
        let raw := selectMarkets 50 data
        match raw.reverse.find? (fun pm => pm.id == adm.polyId) with
        | none => s
        | some pm =>
          let mapped := polymarketToBube pm
          let refreshOne := fun (m : Market) =>
            if m.id == adminId then
              { m with currentP := mapped.currentP, question := mapped.question,
                       description := mapped.description }
            else m
          { s with markets := s.markets.map refreshOne }

/-! ## Concrete states

Concrete markets, positions and ledgers used to instantiate the theorems;
the numbers follow the spec's worked examples. -/

/-- An `OPEN` local market at probability 0.50. -/
def mkt0 : Market :=
  { id := "m1", question := "q", description := "", slug := "", source := "local",
    polyId := "", currentP := 1 / 2, status := .OPEN, outcome := none }

/-- The spec's first worked example position: notional 1,000,000, 10% margin,
entry probability 0.50, `LONG`. -/
def pos0 : Position :=
  { id := "p1", marketId := "m1", side := .LONG, notional := 1000000, imPct := 10,
    imAmount := 100000, entryP := 1 / 2, currentP := 1 / 2, pnl := 0,
    equity := 100000, status := .OPEN }

/-- Ledger holding `mkt0` and `pos0`. -/
def st0 : EngineState := { markets := [mkt0], positions := [pos0] }

/-- The spec's second worked example position: notional 500,000, 10% margin,
entry probability 0.41, `SHORT`. -/
def posShort : Position :=
  { id := "p2", marketId := "m1", side := .SHORT, notional := 500000, imPct := 10,
    imAmount := 50000, entryP := 41 / 100, currentP := 41 / 100, pnl := 0,
    equity := 50000, status := .OPEN }

/-- Ledger holding `mkt0` and `posShort`. -/
def stShort : EngineState := { markets := [mkt0], positions := [posShort] }

/-- A position already `LIQUIDATED`, frozen at the liquidation-time values of
the first worked example. -/
def liqPos : Position :=
  { id := "p3", marketId := "m1", side := .LONG, notional := 1000000, imPct := 10,
    imAmount := 100000, entryP := 1 / 2, currentP := 4 / 10, pnl := -100000,
    equity := 0, status := .LIQUIDATED }

/-- Two markets and a liquidated position on the first. -/
def stLiq : EngineState :=
  { markets := [mkt0, { mkt0 with id := "m2" }], positions := [liqPos] }

/-- A position already `SETTLED`. -/
def settledPos : Position :=
  { liqPos with id := "p4", status := .SETTLED }

/-- Ledger with `mkt0` and an already-settled position. -/
def stSettledPos : EngineState := { markets := [mkt0], positions := [settledPos] }

/-- A market that has already been settled with outcome 1. -/
def settledMkt : Market :=
  { mkt0 with status := .SETTLED, outcome := some 1, currentP := 1 }

/-- Ledger holding only the settled market. -/
def stSettled : EngineState := { markets := [settledMkt], positions := [] }

/-- A Polymarket-sourced admin market linked to provider id `"7"`. -/
def polyMkt : Market :=
  { id := "poly-7", question := "q7", description := "", slug := "s7",
    source := "polymarket", polyId := "7", currentP := 3 / 10, status := .OPEN,
    outcome := none }

/-- Ledger holding the Polymarket-sourced market. -/
def stPoly : EngineState := { markets := [polyMkt], positions := [] }

/-- A well-formed provider candidate whose id does not match `polyMkt`. -/
def pmOther : PolyMarket :=
  { id := "8", active := true, closed := false, outcomes := .array 2,
    outcomePrices := .array (some (6 / 10)), slug := "s8", question := "q8",
    description := "" }

/-- A provider candidate that passes the active/closed/binary filter but whose
`outcomePrices` field is malformed JSON. -/
def badPriceCandidate : PolyMarket :=
  { id := "42", active := true, closed := false, outcomes := .array 2,
    outcomePrices := .malformed, slug := "s42", question := "q42",
    description := "" }

/-! ## Helper lemmas -/

/-- The update propagator leaves a position of another market untouched. -/
theorem updatePositionOne_other_market (mid : String) (newP : ℚ) (pos : Position)
    (h : pos.marketId ≠ mid) : updatePositionOne mid newP pos = pos := by
  simp [updatePositionOne, h]

/-- The update propagator leaves a non-`OPEN` position untouched. -/
theorem updatePositionOne_not_open (mid : String) (newP : ℚ) (pos : Position)
    (h : pos.status ≠ .OPEN) : updatePositionOne mid newP pos = pos := by
  unfold updatePositionOne
  split
  · rfl
  · simp [h]

/-- Positions after a price update, position-by-position. -/
theorem applyPriceUpdate_positions_getElem (s : EngineState) (mid : String) (newP : ℚ)
    (i : Nat) (pos : Position) (hget : s.positions[i]? = some pos)
    (hfix : updatePositionOne mid newP pos = pos) :
    (applyPriceUpdate s mid newP).positions[i]? = some pos := by
  unfold applyPriceUpdate
  cases hfm : findMarket s mid with
  | none => simpa using hget
  | some m => simp [List.getElem?_map, hget, hfix]

/-- Every candidate kept by the selection loop passes `keepMarket`. -/
theorem mem_selectGo_keep (maxM : Nat) (m : PolyMarket) :
    ∀ (count : Nat) (data : List PolyMarket),
      m ∈ selectGo maxM count data → keepMarket m = true := by
  intro count data
  induction data generalizing count with
  | nil => intro h; simp [selectGo] at h
  | cons a rest ih =>
    intro h
    unfold selectGo at h
    by_cases hk : keepMarket a
    · simp only [hk, if_true] at h
      by_cases hc : count + 1 ≥ maxM
      · simp only [hc, if_true, List.mem_singleton] at h
        exact h ▸ hk
      · simp only [hc, if_false, List.mem_cons] at h
        rcases h with rfl | h
        · exact hk
        · exact ih _ h
    · simp only [hk, if_false] at h
      exact ih _ h

/-! ## Claims -/

/-- Claim C1: for every notional > 0, entry and current probability in [0,1]
and side in `{LONG, SHORT}`, the pricing function returns
`pnl = notional * (currentP - entryP) * sign(side)` with `sign(LONG) = +1`
and `sign(SHORT) = -1`, and the equity function returns
`equity = marginAmount + pnl`.  Both are plain total functions of their
arguments (no error conditions, no state). -/
theorem pricing_identity (notional entryP currentP : ℚ) (side : Side)
    (hn : 0 < notional) (he0 : 0 ≤ entryP) (he1 : entryP ≤ 1)
    (hc0 : 0 ≤ currentP) (hc1 : currentP ≤ 1) :
    pdPnl notional entryP currentP side = notional * (currentP - entryP) * side.sign ∧
    ∀ marginAmount pnl : ℚ, computeEquity marginAmount pnl = marginAmount + pnl := by
  constructor
  · cases side <;> simp [pdPnl, Side.sign]
  · intro marginAmount pnl
    rfl

/-- Witness for C1 at the spec's first worked example
(notional 1,000,000, entry 0.50, current 0.40, `LONG`). -/
theorem pricing_identity_witness :
    pdPnl 1000000 (1 / 2) (4 / 10) .LONG =
      1000000 * ((4 / 10 : ℚ) - 1 / 2) * Side.LONG.sign ∧
    ∀ marginAmount pnl : ℚ, computeEquity marginAmount pnl = marginAmount + pnl :=
  pricing_identity 1000000 (1 / 2) (4 / 10) .LONG (by norm_num) (by norm_num)
    (by norm_num) (by norm_num) (by norm_num)

/-- Claim C2: when a price update is applied, an `OPEN` position of the
updated market transitions to `LIQUIDATED` exactly when its freshly
recomputed equity is at most `LIQ_THRESHOLD_BETA` times its margin, and stays
`OPEN` otherwise (never liquidated before the threshold is hit); the
threshold is the single system-wide constant `LIQ_THRESHOLD_BETA = 0.05`
(`isLiquidation` takes no per-market or per-position threshold). -/
theorem liquidation_threshold (s : EngineState) (mid : String) (newP : ℚ)
    (pos : Position) (hfind : (findMarket s mid).isSome = true)
    (hopen : pos.status = .OPEN) (hmkt : pos.marketId = mid) :
    (applyPriceUpdate s mid newP).positions = s.positions.map (updatePositionOne mid newP) ∧
    ((updatePositionOne mid newP pos).status = .LIQUIDATED ↔
      computeEquity pos.imAmount (pdPnl pos.notional pos.entryP newP pos.side) ≤
        LIQ_THRESHOLD_BETA * pos.imAmount) ∧
    ((updatePositionOne mid newP pos).status = .LIQUIDATED ∨
      (updatePositionOne mid newP pos).status = .OPEN) ∧
    LIQ_THRESHOLD_BETA = 5 / 100 := by
  obtain ⟨m, hm⟩ := Option.isSome_iff_exists.mp hfind
  refine ⟨?_, ?_, ?_, rfl⟩
  · unfold applyPriceUpdate
    rw [hm]
  · unfold updatePositionOne
    simp only [hmkt, bne_self_eq_false, Bool.false_eq_true, if_false, hopen,
      isLiquidation]
    by_cases hl : computeEquity pos.imAmount (pdPnl pos.notional pos.entryP newP pos.side) ≤
        LIQ_THRESHOLD_BETA * pos.imAmount
    · simp [hl]
    · simp [hl]
  · unfold updatePositionOne
    simp only [hmkt, bne_self_eq_false, Bool.false_eq_true, if_false, hopen,
      isLiquidation]
    by_cases hl : computeEquity pos.imAmount (pdPnl pos.notional pos.entryP newP pos.side) ≤
        LIQ_THRESHOLD_BETA * pos.imAmount
    · simp [hl]
    · simp [hl]

/-- Witness for C2 at the spec's first worked example: price moves to 0.40,
recomputed equity is 0 ≤ 5,000, so the position is liquidated. -/
theorem liquidation_threshold_witness :
    (applyPriceUpdate st0 "m1" (4 / 10)).positions =
      st0.positions.map (updatePositionOne "m1" (4 / 10)) ∧
    ((updatePositionOne "m1" (4 / 10) pos0).status = .LIQUIDATED ↔
      computeEquity pos0.imAmount (pdPnl pos0.notional pos0.entryP (4 / 10) pos0.side) ≤
        LIQ_THRESHOLD_BETA * pos0.imAmount) ∧
    ((updatePositionOne "m1" (4 / 10) pos0).status = .LIQUIDATED ∨
      (updatePositionOne "m1" (4 / 10) pos0).status = .OPEN) ∧
    LIQ_THRESHOLD_BETA = 5 / 100 :=
  liquidation_threshold st0 "m1" (4 / 10) pos0 (by decide) rfl rfl

/-- Claim C3: a position whose status is not `OPEN` (`LIQUIDATED` or
`SETTLED`) is left with its `pnl`, `equity`, `currentP` and `status`
completely unchanged by any sequence of price updates; likewise a position is
unchanged by any sequence of price updates that all target other markets.
The position at index `i` is literally the same record after the updates. -/
theorem frame_after_price_updates (s : EngineState) (us : List (String × ℚ))
    (i : Nat) (pos : Position) (hget : s.positions[i]? = some pos)
    (hcond : pos.status ≠ .OPEN ∨ ∀ u ∈ us, u.1 ≠ pos.marketId) :
    (applyUpdates s us).positions[i]? = some pos := by
  induction us generalizing s with
  | nil => simpa [applyUpdates] using hget
  | cons u rest ih =>
    have hfix : updatePositionOne u.1 u.2 pos = pos := by
      rcases hcond with h | h
      · exact updatePositionOne_not_open _ _ _ h
      · exact updatePositionOne_other_market _ _ _
          (fun hm => h u (List.mem_cons_self u rest) hm.symm)
    have h1 : (applyPriceUpdate s u.1 u.2).positions[i]? = some pos :=
      applyPriceUpdate_positions_getElem s u.1 u.2 i pos hget hfix
    have hrest : pos.status ≠ .OPEN ∨ ∀ v ∈ rest, v.1 ≠ pos.marketId := by
      rcases hcond with h | h
      · exact Or.inl h
      · exact Or.inr (fun v hv => h v (List.mem_cons_of_mem u hv))
    exact ih (applyPriceUpdate s u.1 u.2) h1 hrest

/-- Witness for C3: the liquidated position `liqPos` is untouched by an
update on its own market followed by one on another market. -/
theorem frame_after_price_updates_witness :
    (applyUpdates stLiq [("m1", 9 / 10), ("m2", 1 / 10)]).positions[0]? = some liqPos :=
  frame_after_price_updates stLiq [("m1", 9 / 10), ("m2", 1 / 10)] 0 liqPos rfl
    (Or.inl (by decide))

/-- Claim C4: after `settleMarket(mid, outcome)` with outcome in {0,1}, every
position of that market has status `SETTLED`; a previously `LIQUIDATED`
position keeps its pre-settlement `pnl`/`equity`; a previously `OPEN`
position gets its final `pnl` computed with the outcome substituted for the
current probability and `equity = marginAmount + pnl`; the liquidation
predicate is never consulted — even when `isLiquidation` holds on the
settlement-implied equity the status is `SETTLED`, not `LIQUIDATED`. -/
theorem settlement_finality (s : EngineState) (mid : String) (o : ℚ)
    (ho : o = 0 ∨ o = 1) (hfind : (findMarket s mid).isSome = true)
    (i : Nat) (pos : Position) (hget : s.positions[i]? = some pos)
    (hmkt : pos.marketId = mid) :
    (settleMarket s mid o).positions[i]? = some (settlePosition mid o pos) ∧
    (settlePosition mid o pos).status = .SETTLED ∧
    (pos.status = .LIQUIDATED →
      (settlePosition mid o pos).pnl = pos.pnl ∧
      (settlePosition mid o pos).equity = pos.equity) ∧
    (pos.status = .OPEN →
      (settlePosition mid o pos).pnl = pdPnl pos.notional pos.entryP o pos.side ∧
      (settlePosition mid o pos).equity =
        computeEquity pos.imAmount (pdPnl pos.notional pos.entryP o pos.side) ∧
      (settlePosition mid o pos).currentP = o ∧
      (isLiquidation
          (computeEquity pos.imAmount (pdPnl pos.notional pos.entryP o pos.side))
          pos.imAmount = true →
        (settlePosition mid o pos).status = .SETTLED)) := by
  obtain ⟨m, hm⟩ := Option.isSome_iff_exists.mp hfind
  have hco : ((o == 1 : Bool) → (1 : ℚ) = o) ∧ (¬ (o == 1 : Bool) → (0 : ℚ) = o) := by
    constructor
    · intro h; exact (beq_iff_eq.mp h).symm
    · intro h
      rcases ho with rfl | rfl
      · rfl
      · exact absurd (beq_iff_eq.mpr rfl) h
  refine ⟨?_, ?_, ?_, ?_⟩
  · unfold settleMarket
    rw [hm]
    by_cases hb : (o == 1 : Bool)
    · rw [if_pos hb, hco.1 hb]
      simp [List.getElem?_map, hget]
    · rw [if_neg hb, hco.2 hb]
      simp [List.getElem?_map, hget]
  · rcases hst : pos.status <;> simp [settlePosition, hmkt, hst]
  · intro hst
    simp [settlePosition, hmkt, hst]
  · intro hst
    simp [settlePosition, hmkt, hst, computeEquity]

/-- Witness for C4 at the spec's second worked example: `SHORT` 500,000 at
entry 0.41 settles with outcome 1, final pnl −295,000 and equity −245,000,
status `SETTLED` although the liquidation predicate holds on that equity. -/
theorem settlement_finality_witness :
    (settleMarket stShort "m1" 1).positions[0]? = some (settlePosition "m1" 1 posShort) ∧
    (settlePosition "m1" 1 posShort).status = .SETTLED ∧
    (posShort.status = .LIQUIDATED →
      (settlePosition "m1" 1 posShort).pnl = posShort.pnl ∧
      (settlePosition "m1" 1 posShort).equity = posShort.equity) ∧
    (posShort.status = .OPEN →
      (settlePosition "m1" 1 posShort).pnl =
        pdPnl posShort.notional posShort.entryP 1 posShort.side ∧
      (settlePosition "m1" 1 posShort).equity =
        computeEquity posShort.imAmount (pdPnl posShort.notional posShort.entryP 1 posShort.side) ∧
      (settlePosition "m1" 1 posShort).currentP = 1 ∧
      (isLiquidation
          (computeEquity posShort.imAmount (pdPnl posShort.notional posShort.entryP 1 posShort.side))
          posShort.imAmount = true →
        (settlePosition "m1" 1 posShort).status = .SETTLED)) :=
  settlement_finality stShort "m1" 1 (Or.inr rfl) (by decide) 0 posShort rfl rfl

/-- Counterexample to claim C5: `settleMarket` does not reject a market whose
status is not `OPEN`.  `stSettled` holds a market already `SETTLED` with
outcome 1; settling it again with argument 0 is not rejected — it overwrites
the stored outcome with 0, so status/outcome are not immutable. -/
theorem resettlement_changes_outcome :
    stSettled.markets.map Market.outcome = [some 1] ∧
    (settleMarket stSettled "m1" 0).markets.map Market.outcome = [some 0] := by
  constructor
  · rfl
  · norm_num [settleMarket, findMarket, stSettled, settledMkt, mkt0]

/-- Claim C5 as amended: `settleMarket` performs no status or outcome
validation at all.  Whenever the market exists — whatever its current status,
including `SETTLED` — the call unconditionally sets its status to `SETTLED`
and overwrites its outcome with the coerced value (1 when the argument equals
1, else 0; an argument outside {0,1} is coerced to 0, not rejected).  A
settled market's status/outcome are therefore not immutable: a second
`settleMarket` call can change the stored outcome. -/
theorem resettlement_overwrites (s : EngineState) (mid : String) (o : ℚ)
    (hfind : (findMarket s mid).isSome = true) :
    ∀ m' ∈ (settleMarket s mid o).markets, m'.id = mid →
      m'.status = .SETTLED ∧ m'.outcome = some (if o = 1 then 1 else 0) := by
  obtain ⟨m, hm⟩ := Option.isSome_iff_exists.mp hfind
  intro m' hmem hid
  unfold settleMarket at hmem
  rw [hm] at hmem
  simp only [List.mem_map] at hmem
  obtain ⟨a, _, rfl⟩ := hmem
  by_cases hb : (a.id == mid : Bool)
  · rw [if_pos hb]
    refine ⟨rfl, ?_⟩
    by_cases h1 : (o == 1 : Bool)
    · simp [beq_iff_eq.mp h1]
    · have : o ≠ 1 := fun h => h1 (beq_iff_eq.mpr h)
      simp [this]
  · exfalso
    rw [if_neg hb] at hid
    exact absurd (beq_iff_eq.mpr hid) hb

/-- Witness for the amended C5: re-settling the already-settled market with
argument 0 rewrites its outcome to 0 (the rewritten record is a member of
the post-settlement Probability Ledger). -/
theorem resettlement_overwrites_witness :
    ({ settledMkt with outcome := some 0 } : Market).status = .SETTLED ∧
    ({ settledMkt with outcome := some 0 } : Market).outcome =
      some (if (0 : ℚ) = 1 then 1 else 0) :=
  resettlement_overwrites stSettled "m1" 0 (by decide)
    { settledMkt with outcome := some 0 }
    (by norm_num [settleMarket, findMarket, stSettled, settledMkt, mkt0]) rfl

/-- Claim C6 (code bug in the JS copy): `handleOpenPosition` checks only that
a market is selected and `notional > 0`; it has no market-status guard, so it
appends an `OPEN` position even on a market that is already `SETTLED`.  The
Python handler in the same repository rejects exactly this input
(`"Cannot open position on a settled market."`), leaving the ledger
unchanged.  Here both handlers are evaluated on the settled market
`stSettled` with notional 1000: the JS one creates the position, the Python
one does not. -/
theorem open_on_settled_market :
    (handleOpenPosition stSettled "m1" .LONG 1000 10 "p9").positions =
      [{ id := "p9", marketId := "m1", side := .LONG, notional := 1000, imPct := 10,
         imAmount := 100, entryP := 1, currentP := 1, pnl := 0, equity := 100,
         status := .OPEN }] ∧
    (openPositionPy stSettled "m1" .LONG 1000 (1 / 10) "p9").positions = [] := by
  constructor
  · norm_num [handleOpenPosition, findMarket, stSettled, settledMkt, mkt0]
  · norm_num [openPositionPy, findMarket, stSettled, settledMkt, mkt0]
    simp

/-- Claim C7: settlement is idempotent per position — a position already in
status `SETTLED` is literally unchanged (same record, hence same status,
`pnl`, `equity` and `currentP`) by any further `settleMarket` call on its
market (or any other market, any outcome argument). -/
theorem settled_position_idempotent (s : EngineState) (mid : String) (o : ℚ)
    (i : Nat) (pos : Position) (hget : s.positions[i]? = some pos)
    (hst : pos.status = .SETTLED) :
    (settleMarket s mid o).positions[i]? = some pos := by
  have hfix : ∀ oc : ℚ, settlePosition mid oc pos = pos := by
    intro oc
    unfold settlePosition
    split
    · rfl
    · rw [if_pos (by simp [hst])]
  unfold settleMarket
  cases hfm : findMarket s mid with
  | none => simpa using hget
  | some m => simp [List.getElem?_map, hget, hfix]

/-- Witness for C7: the already-settled position `settledPos` is unchanged by
re-settling its market with outcome 0. -/
theorem settled_position_idempotent_witness :
    (settleMarket stSettledPos "m1" 0).positions[0]? = some settledPos :=
  settled_position_idempotent stSettledPos "m1" 0 0 settledPos rfl rfl

/-- Counterexample to claim C8: a candidate whose probability field
(`outcomePrices`) is malformed is NOT rejected.  `badPriceCandidate` is
active, not closed, has exactly two outcomes, and a malformed
`outcomePrices`; the filter keeps it and normalisation maps it with the
probability silently defaulting to 0. -/
theorem malformed_price_not_skipped :
    badPriceCandidate.outcomePrices = .malformed ∧
    selectMarkets 20 [badPriceCandidate] = [badPriceCandidate] ∧
    (polymarketToBube badPriceCandidate).currentP = 0 := by
  refine ⟨rfl, ?_, rfl⟩
  decide

/-- Claim C8 as amended: every candidate kept by the ingestion filter has
`active = true`, `closed = false` and an outcome array of length exactly two
(so a candidate with the active flag false, the closed flag true, a non-binary
outcome count, or a malformed/non-array `outcomes` field is excluded); every
surviving candidate is normalised with its id prefixed by `poly-`; and a
candidate with a malformed probability (`outcomePrices`) field is NOT
skipped — it is kept, with its probability defaulting to 0.  Both
`selectMarkets` and `polymarketToBube` are total, so no candidate aborts the
batch. -/
theorem ingestion_filter (maxM : Nat) (data : List PolyMarket) (m : PolyMarket)
    (hmem : m ∈ selectMarkets maxM data) :
    (m.active = true ∧ m.closed = false ∧ m.outcomes = .array 2) ∧
    (polymarketToBube m).id = "poly-" ++ m.id ∧
    (m.outcomePrices = .malformed → (polymarketToBube m).currentP = 0) := by
  have hk : keepMarket m = true := mem_selectGo_keep maxM m 0 data hmem
  unfold keepMarket at hk
  simp only [Bool.and_eq_true, Bool.not_eq_true'] at hk
  refine ⟨⟨hk.1.1, hk.1.2, ?_⟩, rfl, ?_⟩
  · cases ho : m.outcomes with
    | malformed => rw [ho] at hk; simp at hk
    | notArray => rw [ho] at hk; simp at hk
    | array n =>
      rw [ho] at hk
      simp only [Nat.beq_eq_true_eq] at hk
      obtain ⟨-, h2⟩ := hk
      exact congrArg ParsedOutcomes.array h2
  · intro hmal
    simp [polymarketToBube, pYesOf, hmal]

/-- Witness for the amended C8 at a two-candidate batch: the malformed-price
candidate is kept with probability 0, its id prefixed. -/
theorem ingestion_filter_witness :
    (badPriceCandidate.active = true ∧ badPriceCandidate.closed = false ∧
      badPriceCandidate.outcomes = .array 2) ∧
    (polymarketToBube badPriceCandidate).id = "poly-" ++ badPriceCandidate.id ∧
    (badPriceCandidate.outcomePrices = .malformed →
      (polymarketToBube badPriceCandidate).currentP = 0) :=
  ingestion_filter 20 [badPriceCandidate, pmOther] badPriceCandidate (by decide)

/-- Claim C9: `handleRefreshFromPolymarket` leaves the market and position
ledgers exactly as they were when the fetch fails (the rejected-promise
`.catch` path) or when no candidate in the filtered provider response matches
the admin market's `polyId` — the whole state is returned unchanged, so no
partial update of market or position state is possible on those paths. -/
theorem refresh_failure_no_update (s : EngineState) (adminId : String) :
    handleRefreshFromPolymarket s adminId none = s ∧
    (∀ (data : List PolyMarket) (adm : Market), findMarket s adminId = some adm →
      (selectMarkets 50 data).reverse.find? (fun pm => pm.id == adm.polyId) = none →
      handleRefreshFromPolymarket s adminId (some data) = s) := by
  constructor
  · unfold handleRefreshFromPolymarket
    cases hfm : findMarket s adminId with
    | none => rfl
    | some adm =>
      by_cases hsrc : (adm.source != "polymarket" : Bool)
      · simp [hsrc]
      · simp [hsrc]
  · intro data adm hfm hfind
    unfold handleRefreshFromPolymarket
    rw [hfm]
    by_cases hsrc : (adm.source != "polymarket" : Bool)
    · simp [hsrc]
    · simp [hsrc, hfind]

/-- Witness for C9: a failed fetch and a response containing only a candidate
with a non-matching id both leave the ledger `stPoly` unchanged. -/
theorem refresh_failure_no_update_witness :
    handleRefreshFromPolymarket stPoly "poly-7" none = stPoly ∧
    handleRefreshFromPolymarket stPoly "poly-7" (some [pmOther]) = stPoly :=
  ⟨(refresh_failure_no_update stPoly "poly-7").1,
   (refresh_failure_no_update stPoly "poly-7").2 [pmOther] polyMkt (by rfl) (by decide)⟩

/-- Claim C10 (implicit): for every settlement argument — not just 0 and 1 —
the outcome stored on the market is exactly 0 or 1: `handleSettle` coerces
any argument other than 1 to 0 (`settleOutcome === 1 ? 1 : 0`) before writing
it to the market and before computing the final position pnl, so the
settled-market invariant `outcome ∈ {0, 1}` holds after every settlement
call. -/
theorem settle_outcome_coerced (s : EngineState) (mid : String) (o : ℚ)
    (hfind : (findMarket s mid).isSome = true) :
    (∀ m' ∈ (settleMarket s mid o).markets, m'.id = mid →
      (m'.outcome = some 0 ∨ m'.outcome = some 1) ∧
      (o ≠ 1 → m'.outcome = some 0) ∧ (o = 1 → m'.outcome = some 1)) ∧
    (settleMarket s mid o).positions =
      s.positions.map (settlePosition mid (if o = 1 then 1 else 0)) := by
  obtain ⟨m, hm⟩ := Option.isSome_iff_exists.mp hfind
  have hcoerce : ((if (o == 1 : Bool) then (1 : ℚ) else 0)) = (if o = 1 then 1 else 0) := by
    by_cases h1 : o = 1
    · simp [h1]
    · simp [h1, fun h => h1 (beq_iff_eq.mp h)]
  constructor
  · intro m' hmem hid
    unfold settleMarket at hmem
    rw [hm] at hmem
    simp only [List.mem_map] at hmem
    obtain ⟨a, _, rfl⟩ := hmem
    by_cases hb : (a.id == mid : Bool)
    · rw [if_pos hb]
      by_cases h1 : o = 1
      · simp [h1]
      · have hb1 : ¬ (o == 1 : Bool) := fun h => h1 (beq_iff_eq.mp h)
        simp [h1, hb1]
    · exfalso
      rw [if_neg hb] at hid
      exact absurd (beq_iff_eq.mpr hid) hb
  · unfold settleMarket
    rw [hm, hcoerce]

/-- Witness for C10: settling with the out-of-range argument 7/2 stores
outcome 0 and finalises positions with outcome 0. -/
theorem settle_outcome_coerced_witness :
    (∀ m' ∈ (settleMarket st0 "m1" (7 / 2)).markets, m'.id = "m1" →
      (m'.outcome = some 0 ∨ m'.outcome = some 1) ∧
      ((7 / 2 : ℚ) ≠ 1 → m'.outcome = some 0) ∧ ((7 / 2 : ℚ) = 1 → m'.outcome = some 1)) ∧
    (settleMarket st0 "m1" (7 / 2)).positions =
      st0.positions.map (settlePosition "m1" (if (7 / 2 : ℚ) = 1 then 1 else 0)) :=
  settle_outcome_coerced st0 "m1" (7 / 2) (by decide)

end PDEngine
